import Mathlib

/-!
Verification development for the kenvmanager / kloch profile resolution
engine.  The Python sources are shallowly embedded: Python `dict`s become
insertion-ordered association lists over `String` keys, Python values become
the inductive `Value`, and fallible operations return `Except PyError`.
Python string primitives used by the engine (`str.removeprefix`,
`str.startswith`, `str.split(":")[-1]`, `int(...)`) are modelled over the
character list of the string so that every definition evaluates inside the
kernel.
-/

namespace Kloch

/-- A YAML-equivalent value as manipulated by the engine: strings, integers,
booleans, sequences and nested string-keyed mappings.  Mappings are modelled
as insertion-ordered association lists, matching Python `dict` semantics. -/
inductive Value : Type where
  | vstr (s : String) : Value
  | vint (n : Int) : Value
  | vbool (b : Bool) : Value
  | vlist (l : List Value) : Value
  | vdict (d : List (String × Value)) : Value

/-- A Python `dict[str, ...]` as an insertion-ordered association list. -/
abbrev Dict := List (String × Value)

/-- Python `d.get(key, None)`: first binding of `key`, if any. -/
def dictGet : Dict → String → Option Value
  | [], _ => none
  | (k, v) :: rest, key => if k = key then some v else dictGet rest key

/-- Python `d[key] = val`: replace the value in place when the key exists
(keeping its position), otherwise append the new binding at the end. -/
def dictInsert : Dict → String → Value → Dict
  | [], key, val => [(key, val)]
  | (k, v) :: rest, key, val =>
    if k = key then (k, val) :: rest else (k, v) :: dictInsert rest key val

/-- Python `key in d` for a `dict`, as a boolean on the association list. -/
def key_mem (key : String) : Dict → Bool
  | [] => false
  | (k, _) :: rest => key == k || key_mem key rest

/-- The two-valued merge-rule tag of the merge algebra
(`kenvmanager.filesyntax._merging.MergeRule`). -/
inductive MergeRule : Type where
  | override : MergeRule
  | append : MergeRule
deriving DecidableEq

/-- Python `key.startswith("+=")`, modelled on the character list: the first
two characters are `+` and `=`. -/
def starts_with_token (key : String) : Bool :=
  match key.data with
  | c1 :: c2 :: _ => c1 = '+' && c2 = '='
  | _ => false

/-- Python `key.removeprefix("+=")` as used by `PackageManagersSerialized`:
drop the two token characters when the key starts with the `+=` token,
otherwise return the key unchanged. -/
def strip_token (key : String) : String :=
  if starts_with_token key then String.mk (key.data.drop 2) else key

mutual
/-- Modelled from the spec: `deepmerge_dicts` of the module
`kenvmanager/filesyntax/_merging.py`, which is not part of the provided
sources.  Per spec section 4.1: a strict left fold over `over`'s keys in
order, merging one key-value pair at a time into the accumulated base via
`merge_pair`.  Keys present only in the base are carried through unchanged;
over-side keys enter under their resolved names; pre-existing keys keep the
base's key order and new keys are appended in first-occurrence order. -/
def deepmerge (key_resolve : String → String) (rule_of : String → MergeRule) :
    Dict → Dict → Dict
  | base, [] => base
  | base, (k, v) :: rest =>
    deepmerge key_resolve rule_of
      (merge_pair key_resolve rule_of base (key_resolve k) (rule_of k)
        (dictGet base (key_resolve k)) v) rest
termination_by _ over => sizeOf over

/-- Modelled from the spec: the per-key case analysis of `deepmerge_dicts`
(spec section 4.1), given the base's current binding of the resolved key
`rk`.  If both values are mappings, recurse regardless of the rule; if both
are sequences and the rule is `append`, concatenate base then over;
otherwise (key absent from the base, rule `override`, type mismatch, or
scalar values) the over value is bound to `rk` wholesale. -/
def merge_pair (key_resolve : String → String) (rule_of : String → MergeRule)
    (base : Dict) (rk : String) (rule : MergeRule) : Option Value → Value → Dict
  | some (Value.vdict bsub), Value.vdict osub =>
      dictInsert base rk (Value.vdict (deepmerge key_resolve rule_of bsub osub))
  | some (Value.vlist bl), Value.vlist ol =>
      if rule = MergeRule.append then dictInsert base rk (Value.vlist (bl ++ ol))
      else dictInsert base rk (Value.vlist ol)
  | _, w => dictInsert base rk w
termination_by _ v => sizeOf v
end

/-- The `key_resolve` callback of `PackageManagersSerialized.__add__`
(src/kenvmanager/filesyntax/_profile.py): strip the `+=` token. -/
def pms_key_resolve (key : String) : String := strip_token key

/-- The `merge_rule` callback of `PackageManagersSerialized.__add__`
(src/kenvmanager/filesyntax/_profile.py): `append` when the key starts with
the `+=` token, `override` otherwise. -/
def pms_merge_rule (key : String) : MergeRule :=
  if starts_with_token key then MergeRule.append else MergeRule.override

/-- `PackageManagersSerialized.__add__` (src/kenvmanager/filesyntax/_profile.py):
`self + other = deepmerge_dicts(over_content=other, base_content=self, ...)`
with the token callbacks above.  The `TypeError` guard on operands that are
not the same kind of model is enforced here by typing. -/
def pms_add (self other : Dict) : Dict :=
  deepmerge pms_key_resolve pms_merge_rule self other

mutual
/-- Modelled from the spec: the recursive traversal of `refacto_dict`
(`kenvmanager/filesyntax/_merging.py`, not in the provided sources) as
instantiated by `PackageManagersSerialized.get_resolved`: rebuild the
mapping binding `strip_token key` to the recursively resolved value, for
every pair in order, recursing into nested mapping values only. -/
def resolve_value : Value → Value
  | Value.vdict d => Value.vdict (resolve_pairs [] d)
  | Value.vstr s => Value.vstr s
  | Value.vint n => Value.vint n
  | Value.vbool b => Value.vbool b
  | Value.vlist l => Value.vlist l
termination_by v => sizeOf v

/-- The rebuild loop of the resolve traversal: successive Python dict
assignments `new[strip_token k] = resolve_value v`, accumulated left to
right. -/
def resolve_pairs (acc : Dict) : Dict → Dict
  | [] => acc
  | (k, v) :: rest => resolve_pairs (dictInsert acc (strip_token k) (resolve_value v)) rest
termination_by l => sizeOf l
end

/-- `PackageManagersSerialized.get_resolved`
(src/kenvmanager/filesyntax/_profile.py): the dict structure with all `+=`
tokens stripped, recursively. -/
def get_resolved (self : Dict) : Dict := resolve_pairs [] self

/-- `EnvironmentProfile` (src/kenvmanager/filesyntax/_profile.py): identifier,
version, optional in-memory base profile, and the serialized managers
mapping.  (In the kloch variant of the sources the managers field is named
`launchers`; the two layouts are identical and are modelled once.) -/
inductive EnvironmentProfile : Type where
  | mk (identifier : String) (version : String)
      (base : Option EnvironmentProfile) (managers : Dict) : EnvironmentProfile

def EnvironmentProfile.identifier : EnvironmentProfile → String
  | .mk i _ _ _ => i

def EnvironmentProfile.version : EnvironmentProfile → String
  | .mk _ v _ _ => v

def EnvironmentProfile.base : EnvironmentProfile → Option EnvironmentProfile
  | .mk _ _ b _ => b

def EnvironmentProfile.managers : EnvironmentProfile → Dict
  | .mk _ _ _ m => m

/-- `EnvironmentProfile.get_merged_profile`
(src/kenvmanager/filesyntax/_profile.py): keep `self.managers` when there is
no base, otherwise flatten the base chain first and combine with the base as
merge base and `self` as over side; return a new profile with `base = None`
and `self`'s identifier and version. -/
def get_merged_profile : EnvironmentProfile → EnvironmentProfile
  | .mk i v none m => .mk i v none m
  | .mk i v (some b) m =>
      .mk i v none (pms_add (get_merged_profile b).managers m)

/-- Number of ancestors of a profile through its `base` chain. -/
def chain_depth : EnvironmentProfile → Nat
  | .mk _ _ none _ => 0
  | .mk _ _ (some b) _ => chain_depth b + 1

/-- `PackageManagersSerialized.unserialize`
(src/kenvmanager/filesyntax/_profile.py): resolve the tokens, then for each
top-level (manager-name, config) pair in order look the manager class up in
the external registry (`get_package_manager_class`, modelled as the `lookup`
parameter); raise `ValueError` with the source's exact message when no class
is registered, otherwise construct via the class's `from_dict` and collect
in first-seen order. -/
def unserialize_go {M : Type} (lookup : String → Option (Value → M)) :
    Dict → Except String (List M)
  | [] => Except.ok []
  | (name, config) :: rest =>
    match lookup name with
    | none => Except.error ("No manager class registred with the name <" ++ name ++ ">")
    | some from_dict =>
      match unserialize_go lookup rest with
      | Except.error e => Except.error e
      | Except.ok ms => Except.ok (from_dict config :: ms)

/-- `PackageManagersSerialized.unserialize`: the loop above applied to
`get_resolved self` (the source iterates `self.get_resolved().items()`). -/
def unserialize {M : Type} (lookup : String → Option (Value → M)) (self : Dict) :
    Except String (List M) :=
  unserialize_go lookup (get_resolved self)

/-! ## Profile repository (src/kloch/filesyntax/_io.py) -/

/-- `KENV_PROFILE_MAGIC` (src/kloch/filesyntax/_io.py). -/
def KENV_PROFILE_MAGIC : String := "kloch_profile"

/-- `KENV_PROFILE_VERSION` (src/kloch/filesyntax/_io.py): the engine's single
supported profile-file version. -/
def KENV_PROFILE_VERSION : Int := 2

/-- The magic header written by `serialize_profile`:
f-string `KENV_PROFILE_MAGIC:KENV_PROFILE_VERSION`. -/
def KENV_MAGIC_HEADER : String := "kloch_profile:2"

/-- The persisted form of a profile file after YAML parsing
(`yaml.safe_load` of a profile file, spec section 6): the magic header, the
identifier and version strings, the optional base identifier, and the plain
tokenized managers mapping. -/
structure SerializedProfile : Type where
  magic : String
  identifier : String
  version : String
  base : Option String
  managers : Dict

/-- The engine-visible filesystem: the YAML files found when scanning the
configured search locations, in directory order then enumeration order, as
`(path, parsed content)` pairs.  Reads and writes at a path use the first
binding, as for a real filesystem with unique paths. -/
abbrev Disk := List (String × SerializedProfile)

/-- Content of the file at `path`, if the file exists. -/
def diskGet : Disk → String → Option SerializedProfile
  | [], _ => none
  | (p, c) :: rest, path => if p = path then some c else diskGet rest path

/-- `file_path.write_text(serialized)`: overwrite the file in place when the
path exists, otherwise create it (appended at enumeration end). -/
def diskInsert : Disk → String → SerializedProfile → Disk
  | [], path, c => [(path, c)]
  | (p, c0) :: rest, path, c =>
    if p = path then (p, c) :: rest else (p, c0) :: diskInsert rest path c

/-- `is_file_environment_profile` (src/kloch/filesyntax/_io.py): the file
parses to a mapping whose `__magic__` value starts with
`KENV_PROFILE_MAGIC`.  The `.yml`-suffix precondition is part of the disk
model (every modelled disk entry is a parsed `.yml` file).  Python
`startswith` for this fixed 13-character magic token is modelled on the
character list. -/
def is_file_environment_profile (disk : Disk) (path : String) : Bool :=
  match diskGet disk path with
  | none => false
  | some c => c.magic.data.take 13 == KENV_PROFILE_MAGIC.data

/-- `get_all_profile_file_paths` (src/kloch/filesyntax/_io.py): the paths of
the candidate files, filtered by `is_file_environment_profile`, in scan
order. -/
def get_all_profile_file_paths (disk : Disk) : List String :=
  (disk.map Prod.fst).filter (fun p => is_file_environment_profile disk p)

/-- `_get_profile_identifier` (src/kloch/filesyntax/_io.py): the `identifier`
field read from the candidate file. -/
def get_profile_identifier (disk : Disk) (path : String) : Option String :=
  (diskGet disk path).map SerializedProfile.identifier

/-- `get_profile_file_path` (src/kloch/filesyntax/_io.py): the candidate
paths whose stored identifier equals `profile_id`; might be empty, the
function itself never raises. -/
def get_profile_file_path (profile_id : String) (disk : Disk) : List String :=
  (get_all_profile_file_paths disk).filter
    (fun p => get_profile_identifier disk p == some profile_id)

/-- Python `asdict["__magic__"].split(":")[-1]`, modelled on the character
list: the substring after the last colon (the whole string when no colon is
present). -/
def after_last_colon (s : String) : String :=
  String.mk ((s.data.reverse.takeWhile (fun c => c ≠ ':')).reverse)

/-- Digit run of Python `int(...)`, most significant first. -/
def parse_digits : List Char → Option Nat
  | [] => none
  | l => go l 0
where go : List Char → Nat → Option Nat
  | [], acc => some acc
  | c :: rest, acc =>
      if 48 ≤ c.toNat ∧ c.toNat ≤ 57 then go rest (acc * 10 + (c.toNat - 48)) else none

/-- Python `int(s)` on the version substring: an optional sign followed by a
nonempty digit run; `none` models the `ValueError` raised on any other
input.  (Surrounding whitespace and underscore separators, which Python also
tolerates, do not occur in magic headers and are not modelled.) -/
def parse_py_int (s : String) : Option Int :=
  match s.data with
  | '-' :: rest => (parse_digits rest).map (fun n => -(n : Int))
  | '+' :: rest => (parse_digits rest).map (fun n => (n : Int))
  | l => (parse_digits l).map (fun n => (n : Int))

/-- The Python exceptions raised by the embedded repository operations, one
constructor per raise site. -/
inductive PyError : Type where
  /-- `open` on a missing file (`FileNotFoundError`). -/
  | fileNotFound (path : String) : PyError
  /-- `int(...)` on a malformed version substring (`ValueError`). -/
  | magicParseError : PyError
  /-- `read_profile_from_file`: `SyntaxError` "Cannot read profile with
  version ... while current API version is ...". -/
  | versionMismatch (found : Int) : PyError
  /-- `read_profile_from_file`: `ValueError` "Found multiple profile with
  identifier ... specified from profile ...". -/
  | conflictBase (base_name source_path : String) : PyError
  /-- `read_profile_from_file`: `ValueError` "No profile found with
  identifier ... specified from profile ...". -/
  | notFoundBase (base_name source_path : String) : PyError
  /-- `read_profile_from_id`: `IndexError` from `profile_paths[0]` on an
  empty match list. -/
  | indexError : PyError
  /-- `write_profile_to_file`: `ValueError` "Found multiple profile with
  identifier ...". -/
  | conflictWrite (identifier : String) : PyError
  /-- `serialize_profile`: `ValueError` "Base profile ... is not registred
  on disk.". -/
  | baseNotOnDisk (identifier : String) : PyError
  /-- Call-stack exhaustion of the unguarded base recursion
  (`RecursionError`); the model's fuel bound. -/
  | recursionError : PyError
deriving DecidableEq

/-- `read_profile_from_file` (src/kloch/filesyntax/_io.py): parse the file at
`file_path`, check the embedded version integer against
`KENV_PROFILE_VERSION` (raising `SyntaxError` on mismatch), then eagerly
resolve a truthy `base` identifier through `get_profile_file_path`, raising
`ValueError` when the identifier matches two or more files or none.  The
source's recursive call drops the explicit `profile_locations` argument and
falls back to the process-wide locations; the model fixes `disk` to that
process-wide scan throughout, so outer and recursive lookups see the same
candidate files.  `fuel` bounds the unguarded recursion (spec section 9
notes there is no cycle guard). -/
def read_profile_from_file (fuel : Nat) (disk : Disk) (file_path : String) :
    Except PyError EnvironmentProfile :=
  match fuel with
  | 0 => Except.error PyError.recursionError
  | fuel + 1 =>
    match diskGet disk file_path with
    | none => Except.error (PyError.fileNotFound file_path)
    | some content =>
      match parse_py_int (after_last_colon content.magic) with
      | none => Except.error PyError.magicParseError
      | some v =>
        if v = KENV_PROFILE_VERSION then
          match content.base with
          | none =>
            Except.ok (EnvironmentProfile.mk content.identifier content.version
              none content.managers)
          | some base_name =>
            if base_name = "" then
              -- Python truthiness: an empty base identifier is falsy and is
              -- not resolved.
              Except.ok (EnvironmentProfile.mk content.identifier content.version
                none content.managers)
            else
              let base_paths := get_profile_file_path base_name disk
              if 2 ≤ base_paths.length then
                Except.error (PyError.conflictBase base_name file_path)
              else
                match base_paths with
                | [] => Except.error (PyError.notFoundBase base_name file_path)
                | bp :: _ =>
                  match read_profile_from_file fuel disk bp with
                  | Except.error e => Except.error e
                  | Except.ok base_profile =>
                    Except.ok (EnvironmentProfile.mk content.identifier
                      content.version (some base_profile) content.managers)
        else Except.error (PyError.versionMismatch v)

/-- `read_profile_from_id` (src/kloch/filesyntax/_io.py): look the matching
paths up and read `profile_paths[0]`; a Python `IndexError` escapes when no
path matches, and extra matches are silently ignored. -/
def read_profile_from_id (fuel : Nat) (profile_id : String) (disk : Disk) :
    Except PyError EnvironmentProfile :=
  match get_profile_file_path profile_id disk with
  | [] => Except.error PyError.indexError
  | p :: _ => read_profile_from_file fuel disk p

/-- `serialize_profile` (src/kloch/filesyntax/_io.py): build the serialized
mapping with the magic header and the fields of `EnvironmentProfile.to_dict`
(src/kenvmanager/filesyntax/_profile.py); when the profile carries a base,
require the base's identifier to match at least one on-disk candidate
(raising `ValueError` otherwise) and store the identifier string only, never
the base's content.  The YAML text emission is modelled as the identity on
the parsed form. -/
def serialize_profile (profile : EnvironmentProfile) (disk : Disk) :
    Except PyError SerializedProfile :=
  match profile.base with
  | none =>
    Except.ok (SerializedProfile.mk KENV_MAGIC_HEADER profile.identifier
      profile.version none profile.managers)
  | some b =>
    if (get_profile_file_path b.identifier disk).isEmpty then
      Except.error (PyError.baseNotOnDisk b.identifier)
    else
      Except.ok (SerializedProfile.mk KENV_MAGIC_HEADER profile.identifier
        profile.version (some b.identifier) profile.managers)

/-- `write_profile_to_file` (src/kloch/filesyntax/_io.py): when
`check_valid_id` is set and some candidate file matches the profile's
identifier while the target path is not among the matches, raise
`ValueError` before writing; otherwise serialize and write the file. -/
def write_profile_to_file (profile : EnvironmentProfile) (file_path : String)
    (disk : Disk) (check_valid_id : Bool) : Except PyError Disk :=
  let profile_paths := get_profile_file_path profile.identifier disk
  if check_valid_id && !profile_paths.isEmpty && !profile_paths.contains file_path then
    Except.error (PyError.conflictWrite profile.identifier)
  else
    match serialize_profile profile disk with
    | Except.error e => Except.error e
    | Except.ok s => Except.ok (diskInsert disk file_path s)

/-- The part of the disk state that makes every base of a profile's chain
resolvable, as claim C3's side condition requires: each ancestor's
identifier matches exactly one candidate file, and that file holds the
ancestor's own serialized form. -/
def chain_stored (disk : Disk) : EnvironmentProfile → Prop
  | .mk _ _ none _ => True
  | .mk _ _ (some b) _ =>
    b.identifier ≠ "" ∧
    (∃ p s, get_profile_file_path b.identifier disk = [p] ∧
      serialize_profile b disk = Except.ok s ∧ diskGet disk p = some s) ∧
    chain_stored disk b

/-! ## Heap model of `get_merged_profile` (for the frame property)

The functional embedding above cannot distinguish mutation from
reconstruction, so the frame claim is settled on an explicit object heap:
profiles live at addresses, attribute reads look the address up, and the
`EnvironmentProfile(...)` constructor call allocates at a fresh address, as
in the Python source. -/

/-- A Python `EnvironmentProfile` object on the heap: its `base` attribute
holds a reference (an address) or `None`. -/
structure ProfileObj : Type where
  identifier : String
  version : String
  base : Option Nat
  managers : Dict

/-- The object heap: `addr`-indexed profile objects; allocation appends. -/
abbrev Heap := List ProfileObj

/-- `EnvironmentProfile.get_merged_profile` on the object heap, line by line:
read `self.managers`; when `self.base` is a reference, recurse on it and
read `.managers` of the returned object, combine with `pms_add`; construct
a new `EnvironmentProfile` (allocated at the end of the heap) with
`base = None`.  `fuel` bounds the unguarded recursion; `none` models a
dangling reference or call-stack exhaustion. -/
def get_merged_profile_heap : Nat → Heap → Nat → Option (Heap × Nat)
  | 0, _, _ => none
  | fuel + 1, heap, addr =>
    match heap[addr]? with
    | none => none
    | some obj =>
      match obj.base with
      | none =>
        some (heap ++ [ProfileObj.mk obj.identifier obj.version none obj.managers],
          heap.length)
      | some base_addr =>
        match get_merged_profile_heap fuel heap base_addr with
        | none => none
        | some (heap1, merged_addr) =>
          match heap1[merged_addr]? with
          | none => none
          | some merged_base =>
            some (heap1 ++ [ProfileObj.mk obj.identifier obj.version none
              (pms_add merged_base.managers obj.managers)], heap1.length)

/-! ## Predicates for the resolve idempotence analysis -/

mutual
/-- No key of the mapping, at any nesting depth, still starts with the `+=`
token after one strip: the keys carry the token at most once. -/
def no_double_token_value : Value → Bool
  | Value.vdict d => no_double_token_pairs d
  | _ => true
termination_by v => sizeOf v

/-- Pairwise form of `no_double_token_value`. -/
def no_double_token_pairs : List (String × Value) → Bool
  | [] => true
  | (k, v) :: rest =>
    !starts_with_token (strip_token k) && no_double_token_value v &&
      no_double_token_pairs rest
termination_by l => sizeOf l
end

mutual
/-- A fully resolved mapping: no key starts with the `+=` token, keys are
unique, and nested mapping values are resolved as well.  `resolve_value`
fixes exactly these mappings. -/
def canonical_value : Value → Bool
  | Value.vdict d => canonical_pairs d
  | _ => true
termination_by v => sizeOf v

/-- Pairwise form of `canonical_value`. -/
def canonical_pairs : List (String × Value) → Bool
  | [] => true
  | (k, v) :: rest =>
    !starts_with_token k && !key_mem k rest && canonical_value v &&
      canonical_pairs rest
termination_by l => sizeOf l
end

/-! ## Theorems -/

/-- C1: `get_merged_profile` returns `self` unchanged when `base` is `None`;
otherwise it returns a new profile whose managers are the fully flattened
base's managers combined (as merge base) with `self`'s managers (as over
side), with `base = None` and identifier/version taken from `self`; for a
chain C based on B based on A the managers are A's combined with B's
combined with C's, in that order. -/
theorem C1_get_merged_profile_flattens :
    (∀ p : EnvironmentProfile, p.base = none → get_merged_profile p = p) ∧
    (∀ p b : EnvironmentProfile, p.base = some b →
      get_merged_profile p = EnvironmentProfile.mk p.identifier p.version none
        (pms_add (get_merged_profile b).managers p.managers)) ∧
    (∀ (iA vA : String) (mA : Dict) (iB vB : String) (mB : Dict)
        (iC vC : String) (mC : Dict),
      get_merged_profile (EnvironmentProfile.mk iC vC
          (some (EnvironmentProfile.mk iB vB
            (some (EnvironmentProfile.mk iA vA none mA)) mB)) mC) =
        EnvironmentProfile.mk iC vC none (pms_add (pms_add mA mB) mC)) := by
  refine ⟨?_, ?_, ?_⟩
  · intro p h
    cases p with
    | mk i v b m =>
      cases b with
      | none => rfl
      | some b => simp [EnvironmentProfile.base] at h
  · intro p b h
    cases p with
    | mk i v b0 m =>
      cases b0 with
      | none => simp [EnvironmentProfile.base] at h
      | some b1 =>
        simp only [EnvironmentProfile.base, Option.some.injEq] at h
        subst h
        simp [get_merged_profile, EnvironmentProfile.identifier,
          EnvironmentProfile.version, EnvironmentProfile.managers]
  · intro iA vA mA iB vB mB iC vC mC
    simp [get_merged_profile, EnvironmentProfile.managers]

/-- Witness for C1 at concrete profiles: a base-less profile is returned
unchanged, and a three-profile chain flattens in A-B-C order. -/
theorem C1_get_merged_profile_flattens_witness :
    get_merged_profile (EnvironmentProfile.mk "a" "1" none [("x", Value.vint 1)]) =
      EnvironmentProfile.mk "a" "1" none [("x", Value.vint 1)] ∧
    get_merged_profile (EnvironmentProfile.mk "c" "3"
        (some (EnvironmentProfile.mk "b" "2"
          (some (EnvironmentProfile.mk "a" "1" none [("x", Value.vint 1)]))
          [("y", Value.vint 2)])) [("z", Value.vint 3)]) =
      EnvironmentProfile.mk "c" "3" none
        (pms_add (pms_add [("x", Value.vint 1)] [("y", Value.vint 2)])
          [("z", Value.vint 3)]) :=
  ⟨C1_get_merged_profile_flattens.1 _ rfl,
   C1_get_merged_profile_flattens.2.2 "a" "1" _ "b" "2" _ "c" "3" _⟩

/-- C2: combining serialized models on a key present in both sides with
sequence values: an unprefixed key replaces the base sequence with the over
sequence wholesale, and a `+=`-prefixed key concatenates base then over;
concretely on the spec's example mappings. -/
theorem C2_override_replaces_append_concatenates :
    (∀ (k : String) (l1 l2 : List Value), starts_with_token k = false →
      pms_add [(k, Value.vlist l1)] [(k, Value.vlist l2)] = [(k, Value.vlist l2)]) ∧
    (∀ (k tk : String) (l1 l2 : List Value), starts_with_token k = false →
      starts_with_token tk = true → strip_token tk = k →
      pms_add [(k, Value.vlist l1)] [(tk, Value.vlist l2)] =
        [(k, Value.vlist (l1 ++ l2))]) ∧
    pms_add [("a", Value.vlist [Value.vint 1, Value.vint 2])]
        [("a", Value.vlist [Value.vint 3])] = [("a", Value.vlist [Value.vint 3])] ∧
    pms_add [("a", Value.vlist [Value.vint 1, Value.vint 2])]
        [("+=a", Value.vlist [Value.vint 3])] =
      [("a", Value.vlist [Value.vint 1, Value.vint 2, Value.vint 3])] := by
  have hov : ∀ (k : String) (l1 l2 : List Value), starts_with_token k = false →
      pms_add [(k, Value.vlist l1)] [(k, Value.vlist l2)] = [(k, Value.vlist l2)] := by
    intro k l1 l2 h
    simp [pms_add, deepmerge, merge_pair, pms_key_resolve, pms_merge_rule,
      strip_token, dictGet, dictInsert, h]
  have hap : ∀ (k tk : String) (l1 l2 : List Value), starts_with_token k = false →
      starts_with_token tk = true → strip_token tk = k →
      pms_add [(k, Value.vlist l1)] [(tk, Value.vlist l2)] =
        [(k, Value.vlist (l1 ++ l2))] := by
    intro k tk l1 l2 h ht hs
    simp [pms_add, deepmerge, merge_pair, pms_key_resolve, pms_merge_rule,
      dictGet, dictInsert, h, ht, hs]
  exact ⟨hov, hap, hov "a" _ _ (by decide), hap "a" "+=a" _ _ (by decide) (by decide) (by decide)⟩

/-- Witness for C2 at a fresh concrete key and sequences. -/
theorem C2_override_replaces_append_concatenates_witness :
    pms_add [("b", Value.vlist [Value.vstr "u"])]
        [("+=b", Value.vlist [Value.vstr "w"])] =
      [("b", Value.vlist [Value.vstr "u", Value.vstr "w"])] :=
  C2_override_replaces_append_concatenates.2.1 "b" "+=b" _ _ (by decide) (by decide)
    (by decide)

/-- C6: reading a profile file whose magic header embeds a version integer
different from `KENV_PROFILE_VERSION` fails with the `SyntaxError`-kind
version mismatch, unconditionally on the rest of the file content: there is
no migration path. -/
theorem C6_version_mismatch_fatal :
    ∀ (fuel : Nat) (disk : Disk) (path : String) (content : SerializedProfile)
      (v : Int),
      diskGet disk path = some content →
      parse_py_int (after_last_colon content.magic) = some v →
      v ≠ KENV_PROFILE_VERSION →
      read_profile_from_file (fuel + 1) disk path =
        Except.error (PyError.versionMismatch v) := by
  intro fuel disk path content v hget hparse hne
  simp [read_profile_from_file, hget, hparse, hne]

/-- Witness for C6: a file with header version 999 is rejected. -/
theorem C6_version_mismatch_fatal_witness :
    read_profile_from_file 1
      [("p.yml", SerializedProfile.mk "kloch_profile:999" "p" "1" none [])]
      "p.yml" = Except.error (PyError.versionMismatch 999) :=
  C6_version_mismatch_fatal 0 _ _ _ 999 rfl (by decide) (by decide)

/-- C10: serializing a profile whose base's identifier matches no candidate
file in the search locations raises the `ValueError`-kind "base profile is
not registred on disk" error, from `serialize_profile` and hence from
`write_profile_to_file`; the base's content is never inlined. -/
theorem C10_serialize_requires_base_on_disk :
    ∀ (profile b : EnvironmentProfile) (disk : Disk) (path : String),
      profile.base = some b →
      get_profile_file_path b.identifier disk = [] →
      serialize_profile profile disk =
        Except.error (PyError.baseNotOnDisk b.identifier) ∧
      write_profile_to_file profile path disk false =
        Except.error (PyError.baseNotOnDisk b.identifier) := by
  intro profile b disk path hbase hlookup
  have hser : serialize_profile profile disk =
      Except.error (PyError.baseNotOnDisk b.identifier) := by
    simp [serialize_profile, hbase, hlookup]
  exact ⟨hser, by simp [write_profile_to_file, hser]⟩

/-- Witness for C10: a profile based on "a" cannot be serialized against an
empty disk. -/
theorem C10_serialize_requires_base_on_disk_witness :
    serialize_profile (EnvironmentProfile.mk "p" "1"
        (some (EnvironmentProfile.mk "a" "1" none [])) []) [] =
      Except.error (PyError.baseNotOnDisk "a") :=
  (C10_serialize_requires_base_on_disk
    (EnvironmentProfile.mk "p" "1" (some (EnvironmentProfile.mk "a" "1" none [])) [])
    (EnvironmentProfile.mk "a" "1" none []) [] "p.yml" rfl rfl).1

/-- C4 counterexample: with two candidate files both declaring identifier
"dup", `read_profile_from_id` does not fail with a conflict — it silently
reads the first match and succeeds. -/
theorem C4_lookup_conflict_counterexample :
    read_profile_from_id 1 "dup"
        [("p1.yml", SerializedProfile.mk "kloch_profile:2" "dup" "1" none []),
         ("p2.yml", SerializedProfile.mk "kloch_profile:2" "dup" "1" none [])] =
      Except.ok (EnvironmentProfile.mk "dup" "1" none []) ∧
    (get_profile_file_path "dup"
        [("p1.yml", SerializedProfile.mk "kloch_profile:2" "dup" "1" none []),
         ("p2.yml", SerializedProfile.mk "kloch_profile:2" "dup" "1" none [])]).length
      = 2 := by
  constructor
  · rfl
  · rfl

/-- C4 amended: only the base-reference lookup inside
`read_profile_from_file` raises on ambiguity or absence (`ValueError`-kind
conflict when two or more candidates match the base identifier, not-found
when none does); the standalone `read_profile_from_id` lookup performs no
such check — it fails with an `IndexError`-kind condition when zero files
match and silently reads the first match otherwise. -/
theorem C4_identifier_lookup_amended :
    (∀ (fuel : Nat) (disk : Disk) (path : String) (content : SerializedProfile)
        (base_name : String),
      diskGet disk path = some content →
      parse_py_int (after_last_colon content.magic) = some KENV_PROFILE_VERSION →
      content.base = some base_name → base_name ≠ "" →
      2 ≤ (get_profile_file_path base_name disk).length →
      read_profile_from_file (fuel + 1) disk path =
        Except.error (PyError.conflictBase base_name path)) ∧
    (∀ (fuel : Nat) (disk : Disk) (path : String) (content : SerializedProfile)
        (base_name : String),
      diskGet disk path = some content →
      parse_py_int (after_last_colon content.magic) = some KENV_PROFILE_VERSION →
      content.base = some base_name → base_name ≠ "" →
      get_profile_file_path base_name disk = [] →
      read_profile_from_file (fuel + 1) disk path =
        Except.error (PyError.notFoundBase base_name path)) ∧
    (∀ (fuel : Nat) (profile_id : String) (disk : Disk),
      get_profile_file_path profile_id disk = [] →
      read_profile_from_id fuel profile_id disk = Except.error PyError.indexError) ∧
    (∀ (fuel : Nat) (profile_id : String) (disk : Disk) (p : String)
        (rest : List String),
      get_profile_file_path profile_id disk = p :: rest →
      read_profile_from_id fuel profile_id disk =
        read_profile_from_file fuel disk p) := by
  refine ⟨?_, ?_, ?_, ?_⟩
  · intro fuel disk path content base_name hget hparse hbase hne h2
    simp [read_profile_from_file, hget, hparse, hbase, hne, h2]
  · intro fuel disk path content base_name hget hparse hbase hne h0
    simp [read_profile_from_file, hget, hparse, hbase, hne, h0]
  · intro fuel profile_id disk h0
    simp [read_profile_from_id, h0]
  · intro fuel profile_id disk p rest h
    simp [read_profile_from_id, h]

/-- Witness for the amended C4 at concrete disks: an ambiguous base raises
the conflict, a missing base raises not-found, and an identifier with no
match raises the index error. -/
theorem C4_identifier_lookup_amended_witness :
    read_profile_from_file 1
        [("c.yml", SerializedProfile.mk "kloch_profile:2" "c" "1" (some "dup") []),
         ("p1.yml", SerializedProfile.mk "kloch_profile:2" "dup" "1" none []),
         ("p2.yml", SerializedProfile.mk "kloch_profile:2" "dup" "1" none [])]
        "c.yml" = Except.error (PyError.conflictBase "dup" "c.yml") ∧
    read_profile_from_file 1
        [("c.yml", SerializedProfile.mk "kloch_profile:2" "c" "1" (some "missing") [])]
        "c.yml" = Except.error (PyError.notFoundBase "missing" "c.yml") ∧
    read_profile_from_id 1 "nothere" [] = Except.error PyError.indexError :=
  ⟨C4_identifier_lookup_amended.1 0 _ "c.yml" _ "dup" rfl (by decide) rfl
      (by decide) (by decide),
   C4_identifier_lookup_amended.2.1 0 _ "c.yml" _ "missing" rfl (by decide) rfl
      (by decide) (by decide),
   C4_identifier_lookup_amended.2.2.1 1 "nothere" [] rfl⟩

/-- `serialize_profile` raises only the base-not-on-disk error: it never
produces the write-conflict error. -/
theorem serialize_profile_ne_conflictWrite :
    ∀ (p : EnvironmentProfile) (disk : Disk) (i : String),
      serialize_profile p disk ≠ Except.error (PyError.conflictWrite i) := by
  intro p disk i h
  cases hb : p.base with
  | none => simp [serialize_profile, hb] at h
  | some b =>
    simp only [serialize_profile, hb] at h
    split at h <;> simp_all

/-- C7 counterexample: with the uniqueness check enabled and the target path
itself among the matches, `write_profile_to_file` proceeds even though a
different on-disk path shares the identifier. -/
theorem C7_write_conflict_counterexample :
    write_profile_to_file (EnvironmentProfile.mk "x" "1" none []) "t.yml"
        [("t.yml", SerializedProfile.mk "kloch_profile:2" "x" "1" none []),
         ("o.yml", SerializedProfile.mk "kloch_profile:2" "x" "1" none [])]
        true =
      Except.ok
        [("t.yml", SerializedProfile.mk "kloch_profile:2" "x" "1" none []),
         ("o.yml", SerializedProfile.mk "kloch_profile:2" "x" "1" none [])] ∧
    "o.yml" ∈ get_profile_file_path "x"
        [("t.yml", SerializedProfile.mk "kloch_profile:2" "x" "1" none []),
         ("o.yml", SerializedProfile.mk "kloch_profile:2" "x" "1" none [])] ∧
    ("o.yml" : String) ≠ "t.yml" := by
  refine ⟨rfl, ?_, by decide⟩
  simp [get_profile_file_path, get_all_profile_file_paths,
    is_file_environment_profile, get_profile_identifier, diskGet,
    KENV_PROFILE_MAGIC]

/-- C7 amended: with the uniqueness check enabled, the write fails with the
`ValueError`-kind conflict exactly when at least one candidate file matches
the profile's identifier and the target path is not among the matches; when
the target path itself is a match, the write proceeds even if other distinct
paths share the identifier. -/
theorem C7_write_unique_id_amended :
    ∀ (profile : EnvironmentProfile) (path : String) (disk : Disk),
      write_profile_to_file profile path disk true =
          Except.error (PyError.conflictWrite profile.identifier) ↔
        (get_profile_file_path profile.identifier disk ≠ [] ∧
          path ∉ get_profile_file_path profile.identifier disk) := by
  intro profile path disk
  simp only [write_profile_to_file, Bool.true_and]
  by_cases h1 : get_profile_file_path profile.identifier disk = []
  · simp only [h1, List.isEmpty_nil, Bool.not_true, Bool.false_and, if_neg
      (by simp : ¬(false = true))]
    constructor
    · intro h
      cases hs : serialize_profile profile disk with
      | error e =>
        rw [hs] at h
        simp at h
        exact (serialize_profile_ne_conflictWrite profile disk _ (h ▸ hs)).elim
      | ok s => rw [hs] at h; exact absurd h (by simp)
    · intro h
      exact absurd rfl h.1
  · by_cases h2 : path ∈ get_profile_file_path profile.identifier disk
    · have hc : (get_profile_file_path profile.identifier disk).contains path = true :=
        List.elem_iff.mpr h2
      simp only [hc, Bool.not_true, Bool.and_false, if_neg (by simp : ¬(false = true))]
      constructor
      · intro h
        cases hs : serialize_profile profile disk with
        | error e =>
          rw [hs] at h
          simp at h
          exact (serialize_profile_ne_conflictWrite profile disk _ (h ▸ hs)).elim
        | ok s => rw [hs] at h; exact absurd h (by simp)
      · intro h
        exact absurd h2 h.2
    · have hc : (get_profile_file_path profile.identifier disk).contains path = false := by
        cases hcc : (get_profile_file_path profile.identifier disk).contains path
        · rfl
        · exact absurd (List.elem_iff.mp hcc) h2
      have he : (get_profile_file_path profile.identifier disk).isEmpty = false := by
        cases hee : (get_profile_file_path profile.identifier disk).isEmpty
        · rfl
        · exact absurd (List.isEmpty_iff.mp hee) h1
      simp [he, hc, h1, h2]

/-- Witness for the amended C7: a matching file at a path distinct from the
target makes the checked write fail with the conflict error. -/
theorem C7_write_unique_id_amended_witness :
    write_profile_to_file (EnvironmentProfile.mk "x" "1" none []) "t.yml"
        [("o.yml", SerializedProfile.mk "kloch_profile:2" "x" "1" none [])]
        true = Except.error (PyError.conflictWrite "x") :=
  (C7_write_unique_id_amended (EnvironmentProfile.mk "x" "1" none []) "t.yml"
      [("o.yml", SerializedProfile.mk "kloch_profile:2" "x" "1" none [])]).mpr
    ⟨by decide, by decide⟩

/-- The loop of `unserialize` succeeds exactly as the option-monad traversal
of the pairs: every manager name resolves to a class and the instances are
collected in first-seen order. -/
theorem unserialize_go_ok_iff {M : Type} (lookup : String → Option (Value → M)) :
    ∀ (l : Dict) (res : List M),
      unserialize_go lookup l = Except.ok res ↔
        l.mapM (fun p => (lookup p.1).map (fun f => f p.2)) = some res := by
  intro l
  induction l with
  | nil =>
    intro res
    constructor
    · intro h
      simp only [unserialize_go, Except.ok.injEq] at h
      subst h
      rfl
    · intro h
      have h2 : some ([] : List M) = some res := h
      simp only [Option.some.injEq] at h2
      subst h2
      rfl
  | cons p rest ih =>
    intro res
    obtain ⟨name, config⟩ := p
    rw [List.mapM_cons]
    cases hl : lookup name with
    | none =>
      simp only [unserialize_go, hl, Option.map_none', Option.bind_eq_bind,
        Option.none_bind]
      constructor
      · intro h
        exact absurd h (by simp)
      · intro h
        exact absurd h (by simp)
    | some fd =>
      simp only [unserialize_go, hl, Option.map_some', Option.bind_eq_bind,
        Option.some_bind]
      cases hr : unserialize_go lookup rest with
      | error e =>
        constructor
        · intro h
          exact absurd h (by simp)
        · intro h
          obtain ⟨ms, hms, hcons⟩ := Option.bind_eq_some.mp h
          have hok := (ih ms).mpr hms
          rw [hr] at hok
          exact absurd hok (by simp)
      | ok ms =>
        constructor
        · intro h
          simp only [Except.ok.injEq] at h
          have hms := (ih ms).mp hr
          rw [hms]
          simp [← h]
        · intro h
          obtain ⟨ms2, hms2, hcons⟩ := Option.bind_eq_some.mp h
          have hok := (ih ms2).mpr hms2
          rw [hr] at hok
          simp only [Except.ok.injEq] at hok
          have hr2 : fd config :: ms2 = res := by simpa using hcons
          rw [← hok] at hr2
          exact congrArg Except.ok hr2

/-- The loop of `unserialize` fails exactly when some manager name has no
registered class, with the source's exact (mis-spelled) message naming the
first such manager. -/
theorem unserialize_go_error_iff {M : Type} (lookup : String → Option (Value → M)) :
    ∀ (l : Dict) (e : String),
      unserialize_go lookup l = Except.error e ↔
        ∃ pair, l.find? (fun p => (lookup p.1).isNone) = some pair ∧
          e = "No manager class registred with the name <" ++ pair.1 ++ ">" := by
  intro l
  induction l with
  | nil => intro e; simp [unserialize_go]
  | cons p rest ih =>
    intro e
    obtain ⟨name, config⟩ := p
    cases hl : lookup name with
    | none =>
      rw [List.find?_cons_of_pos _ (by simp [hl])]
      simp only [unserialize_go, hl]
      constructor
      · intro h
        simp only [Except.error.injEq] at h
        exact ⟨(name, config), rfl, h.symm⟩
      · rintro ⟨pair, hpair, hmsg⟩
        simp only [Option.some.injEq] at hpair
        subst hpair
        simp [hmsg]
    | some fd =>
      rw [List.find?_cons_of_neg _ (by simp [hl])]
      simp only [unserialize_go, hl]
      cases hr : unserialize_go lookup rest with
      | error e2 =>
        have hiff := ih e
        rw [hr] at hiff
        simpa using hiff
      | ok ms =>
        have hiff := ih e
        rw [hr] at hiff
        constructor
        · intro h
          exact absurd h (by simp)
        · intro h
          have h2 := hiff.mpr h
          exact absurd h2 (by simp)

/-- C8 counterexample: the raised message spells "registred", not the
claim's "registered". -/
theorem C8_unserialize_message_counterexample :
    unserialize (fun _ => (none : Option (Value → Unit))) [("foo", Value.vdict [])] =
      Except.error "No manager class registred with the name <foo>" ∧
    ("No manager class registred with the name <foo>" : String) ≠
      "No manager class registered with the name <foo>" := by
  constructor
  · simp +decide [unserialize, get_resolved, resolve_pairs, resolve_value,
      strip_token, dictInsert, unserialize_go]
  · decide

/-- C8 amended: `unserialize` resolves the model and walks the top-level
manager blocks in first-seen key order; it fails with the `ValueError`-kind
message "No manager class registred with the name <X>" (sic, as spelled in
the source) exactly when some name has no registered class, naming the first
such name; otherwise it returns the instances built by each class's
`from_dict`, one per block, in first-seen order. -/
theorem C8_unserialize_amended :
    ∀ (M : Type) (lookup : String → Option (Value → M)) (self : Dict),
      (∀ res : List M, unserialize lookup self = Except.ok res ↔
        (get_resolved self).mapM (fun p => (lookup p.1).map (fun f => f p.2)) =
          some res) ∧
      (∀ e : String, unserialize lookup self = Except.error e ↔
        ∃ pair, (get_resolved self).find? (fun p => (lookup p.1).isNone) = some pair ∧
          e = "No manager class registred with the name <" ++ pair.1 ++ ">") :=
  fun _ lookup self =>
    ⟨fun res => unserialize_go_ok_iff lookup (get_resolved self) res,
     fun e => unserialize_go_error_iff lookup (get_resolved self) e⟩

/-- Witness for the amended C8 at a concrete registry knowing only "rez": an
unknown "foo" block fails with the source's message, and a known block
unserializes to one instance. -/
theorem C8_unserialize_amended_witness :
    unserialize (fun n => if n = "rez" then some (fun _ => ()) else none)
        [("rez", Value.vdict []), ("foo", Value.vdict [])] =
      Except.error "No manager class registred with the name <foo>" ∧
    unserialize (fun n => if n = "rez" then some (fun _ => ()) else none)
        [("rez", Value.vdict [])] = Except.ok [()] := by
  constructor
  · exact ((C8_unserialize_amended Unit _ _).2 _).mpr
      ⟨("foo", Value.vdict []),
       by simp +decide [get_resolved, resolve_pairs, resolve_value, strip_token,
         dictInsert],
       by decide⟩
  · exact ((C8_unserialize_amended Unit _ _).1 _).mpr
      (by simp +decide [get_resolved, resolve_pairs, resolve_value, strip_token,
        dictInsert])

/-- Key membership after a dict assignment: the assigned key, or a key
already present. -/
theorem key_mem_dictInsert (l : Dict) (k : String) (v : Value) (x : String) :
    key_mem x (dictInsert l k v) = true ↔ x = k ∨ key_mem x l = true := by
  induction l with
  | nil => simp [dictInsert, key_mem]
  | cons p rest ih =>
    obtain ⟨k0, v0⟩ := p
    by_cases h : k0 = k
    · subst h
      simp only [dictInsert, if_pos rfl, key_mem, Bool.or_eq_true, beq_iff_eq]
      tauto
    · simp only [dictInsert, if_neg h, key_mem, Bool.or_eq_true, beq_iff_eq, ih]
      tauto

/-- Assigning an absent key appends the binding at the end. -/
theorem dictInsert_absent (l : Dict) (k : String) (v : Value)
    (h : key_mem k l = false) : dictInsert l k v = l ++ [(k, v)] := by
  induction l with
  | nil => rfl
  | cons p rest ih =>
    obtain ⟨k0, v0⟩ := p
    simp only [key_mem, Bool.or_eq_false_iff, beq_eq_false_iff_ne, ne_eq] at h
    have hne : ¬(k0 = k) := fun hc => h.1 hc.symm
    simp only [dictInsert, if_neg hne, List.cons_append, List.cons.injEq, true_and]
    exact ih h.2

/-- Key membership distributes over list append. -/
theorem key_mem_append (x : String) (l1 l2 : Dict) :
    key_mem x (l1 ++ l2) = (key_mem x l1 || key_mem x l2) := by
  induction l1 with
  | nil => simp [key_mem]
  | cons p rest ih =>
    obtain ⟨k0, v0⟩ := p
    simp [key_mem, ih, Bool.or_assoc]

/-- A pair of the list witnesses its key's membership. -/
theorem key_mem_of_mem (p : String × Value) (l : Dict) (h : p ∈ l) :
    key_mem p.1 l = true := by
  induction l with
  | nil => simp at h
  | cons q rest ih =>
    obtain ⟨k0, v0⟩ := q
    rcases List.mem_cons.mp h with h1 | h2
    · subst h1; simp [key_mem]
    · simp [key_mem, ih h2]

/-- A dict assignment with a token-free key and a canonical value preserves
canonicity. -/
theorem canonical_insert (l : Dict) (k : String) (v : Value)
    (hl : canonical_pairs l = true) (hk : starts_with_token k = false)
    (hv : canonical_value v = true) : canonical_pairs (dictInsert l k v) = true := by
  induction l with
  | nil =>
    simp only [dictInsert]
    simp [canonical_pairs, key_mem, hk, hv]
  | cons p rest ih =>
    obtain ⟨k0, v0⟩ := p
    simp only [canonical_pairs, Bool.and_eq_true, Bool.not_eq_true'] at hl
    obtain ⟨⟨⟨h0, hm⟩, hv0⟩, hrest⟩ := hl
    by_cases h : k0 = k
    · subst h
      simp [dictInsert, canonical_pairs, h0, hm, hv, hrest]
    · have hmm : key_mem k0 (dictInsert rest k v) = false := by
        cases hc : key_mem k0 (dictInsert rest k v)
        · rfl
        · rcases (key_mem_dictInsert rest k v k0).mp hc with h1 | h2
          · exact absurd h1 h
          · rw [h2] at hm; exact absurd hm (by simp)
      simp only [dictInsert, if_neg h, canonical_pairs, Bool.and_eq_true,
        Bool.not_eq_true']
      exact ⟨⟨⟨h0, hmm⟩, hv0⟩, ih hrest⟩

mutual
/-- Resolving a mapping with no doubled token yields a canonical value. -/
theorem resolve_canonical_value : ∀ v : Value, no_double_token_value v = true →
    canonical_value (resolve_value v) = true
  | Value.vdict d => fun h => by
      simp only [resolve_value, canonical_value]
      exact resolve_canonical_pairs d []
        (by simpa [no_double_token_value] using h) (by simp [canonical_pairs])
  | Value.vstr s => fun _ => by simp [resolve_value, canonical_value]
  | Value.vint n => fun _ => by simp [resolve_value, canonical_value]
  | Value.vbool b => fun _ => by simp [resolve_value, canonical_value]
  | Value.vlist l => fun _ => by simp [resolve_value, canonical_value]
termination_by v => sizeOf v

/-- Loop form of `resolve_canonical_value`. -/
theorem resolve_canonical_pairs : ∀ (l : List (String × Value)) (acc : Dict),
    no_double_token_pairs l = true → canonical_pairs acc = true →
    canonical_pairs (resolve_pairs acc l) = true
  | [], acc => fun _ hacc => by simpa [resolve_pairs] using hacc
  | (k, v) :: rest, acc => fun h hacc => by
      simp only [no_double_token_pairs, Bool.and_eq_true, Bool.not_eq_true'] at h
      obtain ⟨⟨hk, hv⟩, hrest⟩ := h
      simp only [resolve_pairs]
      exact resolve_canonical_pairs rest _ hrest
        (canonical_insert acc (strip_token k) (resolve_value v) hacc hk
          (resolve_canonical_value v hv))
termination_by l _ => sizeOf l
end

mutual
/-- `resolve_value` fixes canonical values. -/
theorem resolve_fix_value : ∀ v : Value, canonical_value v = true →
    resolve_value v = v
  | Value.vdict d => fun h => by
      simp only [resolve_value]
      rw [resolve_fix_pairs d [] (by simpa [canonical_value] using h)
        (fun p _ => by simp [key_mem])]
      simp
  | Value.vstr s => fun _ => by simp [resolve_value]
  | Value.vint n => fun _ => by simp [resolve_value]
  | Value.vbool b => fun _ => by simp [resolve_value]
  | Value.vlist l => fun _ => by simp [resolve_value]
termination_by v => sizeOf v

/-- Loop form of `resolve_fix_value`: on canonical pairs whose keys avoid
the accumulator, the rebuild loop is a plain append. -/
theorem resolve_fix_pairs : ∀ (l : List (String × Value)) (acc : Dict),
    canonical_pairs l = true → (∀ p ∈ l, key_mem p.1 acc = false) →
    resolve_pairs acc l = acc ++ l
  | [], acc => fun _ _ => by simp [resolve_pairs]
  | (k, v) :: rest, acc => fun h hdisj => by
      simp only [canonical_pairs, Bool.and_eq_true, Bool.not_eq_true'] at h
      obtain ⟨⟨⟨hk, hm⟩, hv⟩, hrest⟩ := h
      simp only [resolve_pairs]
      have hstrip : strip_token k = k := by simp [strip_token, hk]
      have hval : resolve_value v = v := resolve_fix_value v hv
      rw [hstrip, hval, dictInsert_absent acc k v (hdisj (k, v) (by simp))]
      rw [resolve_fix_pairs rest (acc ++ [(k, v)]) hrest ?_]
      · simp
      · intro p hp
        rw [key_mem_append]
        have h1 : key_mem p.1 acc = false := hdisj p (List.mem_cons_of_mem _ hp)
        have h2 : ¬(p.1 = k) := by
          intro hc
          have h3 := key_mem_of_mem p rest hp
          rw [hc] at h3
          rw [h3] at hm
          exact absurd hm (by simp)
        simp [h1, key_mem, h2]
termination_by l _ => sizeOf l
end

/-- C5 counterexample: a key carrying the token twice is stripped once per
resolve pass, so resolving twice differs from resolving once. -/
theorem C5_resolve_idempotence_counterexample :
    get_resolved (get_resolved [("+=+=a", Value.vint 1)]) ≠
      get_resolved [("+=+=a", Value.vint 1)] := by
  simp +decide [get_resolved, resolve_pairs, resolve_value, strip_token,
    dictInsert]

/-- C5 amended: resolve strips one `+=` occurrence per key per pass, so it
is idempotent exactly on mappings none of whose keys (at any nesting depth)
still starts with the token after one strip — in particular on all mappings
whose keys carry the token at most once; a doubled token such as in key
"+=+=a" defeats idempotence. -/
theorem C5_resolve_idempotent_amended :
    ∀ m : Dict, no_double_token_pairs m = true →
      get_resolved (get_resolved m) = get_resolved m := by
  intro m h
  have hcan : canonical_pairs (resolve_pairs [] m) = true :=
    resolve_canonical_pairs m [] h (by simp [canonical_pairs])
  simp only [get_resolved]
  rw [resolve_fix_pairs (resolve_pairs [] m) [] hcan (fun p _ => by simp [key_mem])]
  simp

/-- Witness for the amended C5: a nested mapping with single tokens resolves
idempotently. -/
theorem C5_resolve_idempotent_amended_witness :
    get_resolved (get_resolved
        [("+=a", Value.vdict [("+=b", Value.vint 1), ("c", Value.vstr "s")])]) =
      get_resolved
        [("+=a", Value.vdict [("+=b", Value.vint 1), ("c", Value.vstr "s")])] :=
  C5_resolve_idempotent_amended _
    (by simp +decide [no_double_token_pairs, no_double_token_value, strip_token])

/-- Writing at a path makes the written content readable at that path. -/
theorem diskGet_diskInsert_self (d : Disk) (p : String) (c : SerializedProfile) :
    diskGet (diskInsert d p c) p = some c := by
  induction d with
  | nil => simp [diskInsert, diskGet]
  | cons q rest ih =>
    obtain ⟨p0, c0⟩ := q
    by_cases h : p0 = p
    · subst h; simp [diskInsert, diskGet]
    · simp [diskInsert, diskGet, h, ih]

/-- `serialize_profile` does not depend on which disk is supplied, as long
as the profile's base chain is resolvable on it: the serialized form is the
same. -/
theorem serialize_stable (P : EnvironmentProfile) (disk d2 : Disk)
    (s : SerializedProfile) (hser : serialize_profile P disk = Except.ok s)
    (hchain : chain_stored d2 P) : serialize_profile P d2 = Except.ok s := by
  obtain ⟨i, v, bb, m⟩ := P
  cases bb with
  | none =>
    simpa [serialize_profile, EnvironmentProfile.base, EnvironmentProfile.identifier,
      EnvironmentProfile.version, EnvironmentProfile.managers] using hser
  | some b =>
    obtain ⟨bi, bv, bb2, bm⟩ := b
    obtain ⟨hne, ⟨p, sb, hpath, hserb, hgetb⟩, hchainb⟩ := hchain
    simp only [EnvironmentProfile.identifier] at hne hpath
    simp only [serialize_profile, EnvironmentProfile.base,
      EnvironmentProfile.identifier, EnvironmentProfile.version,
      EnvironmentProfile.managers] at hser ⊢
    split at hser
    · exact absurd hser (by simp)
    · rw [hpath]
      simpa using hser

/-- Reading back a stored serialized profile reconstructs the original
profile, provided every ancestor of its base chain is stored and uniquely
resolvable on the same disk. -/
theorem read_serialize_roundtrip :
    ∀ (fuel : Nat) (P : EnvironmentProfile) (disk : Disk) (path : String)
      (s : SerializedProfile),
      chain_depth P < fuel →
      serialize_profile P disk = Except.ok s →
      diskGet disk path = some s →
      chain_stored disk P →
      read_profile_from_file fuel disk path = Except.ok P := by
  intro fuel
  induction fuel with
  | zero => intro P disk path s hd _ _ _; exact absurd hd (Nat.not_lt_zero _)
  | succ n ih =>
    intro P disk path s hd hser hget hchain
    have hv : parse_py_int (after_last_colon KENV_MAGIC_HEADER) =
        some KENV_PROFILE_VERSION := by decide
    obtain ⟨i, v, bb, m⟩ := P
    cases bb with
    | none =>
      have hs : s = SerializedProfile.mk KENV_MAGIC_HEADER i v none m := by
        simp only [serialize_profile, EnvironmentProfile.base,
          EnvironmentProfile.identifier, EnvironmentProfile.version,
          EnvironmentProfile.managers, Except.ok.injEq] at hser
        exact hser.symm
      subst hs
      simp [read_profile_from_file, hget, hv]
    | some b =>
      obtain ⟨bi, bv, bb2, bm⟩ := b
      obtain ⟨hne, ⟨p, sb, hpath, hserb, hgetb⟩, hchainb⟩ := hchain
      simp only [EnvironmentProfile.identifier] at hne hpath
      have hs : s = SerializedProfile.mk KENV_MAGIC_HEADER i v (some bi) m := by
        simp only [serialize_profile, EnvironmentProfile.base,
          EnvironmentProfile.identifier, EnvironmentProfile.version,
          EnvironmentProfile.managers] at hser
        rw [hpath] at hser
        split at hser
        · exact absurd hser (by simp)
        · simp only [Except.ok.injEq] at hser
          exact hser.symm
      subst hs
      have hdb : chain_depth (EnvironmentProfile.mk bi bv bb2 bm) < n := by
        simp only [chain_depth] at hd
        omega
      have hread : read_profile_from_file n disk p =
          Except.ok (EnvironmentProfile.mk bi bv bb2 bm) :=
        ih (EnvironmentProfile.mk bi bv bb2 bm) disk p sb hdb hserb hgetb hchainb
      simp [read_profile_from_file, hget, hv, hne, hpath, hread]

/-- C3: writing a profile and reading the target path back reconstructs a
structurally equal profile, for any fuel exceeding the chain depth, provided
the disk after the write stores every ancestor of the base chain uniquely
(the claim's "search locations available to resolve any base"). -/
theorem C3_write_read_roundtrip :
    ∀ (fuel : Nat) (P : EnvironmentProfile) (disk d2 : Disk) (path : String)
      (check : Bool),
      write_profile_to_file P path disk check = Except.ok d2 →
      chain_depth P < fuel →
      chain_stored d2 P →
      read_profile_from_file fuel d2 path = Except.ok P := by
  intro fuel P disk d2 path check hw hd hchain
  simp only [write_profile_to_file] at hw
  split at hw
  · exact absurd hw (by simp)
  · cases hs : serialize_profile P disk with
    | error e => rw [hs] at hw; exact absurd hw (by simp)
    | ok s =>
      rw [hs] at hw
      simp only [Except.ok.injEq] at hw
      have hget : diskGet d2 path = some s := by
        rw [← hw]
        exact diskGet_diskInsert_self disk path s
      exact read_serialize_roundtrip fuel P d2 path s hd
        (serialize_stable P disk d2 s hs hchain) hget hchain

/-- Witness for C3: a two-profile chain written to disk reads back equal. -/
theorem C3_write_read_roundtrip_witness :
    read_profile_from_file 2
        [("a.yml", SerializedProfile.mk "kloch_profile:2" "a" "1" none
            [("x", Value.vint 1)]),
         ("p.yml", SerializedProfile.mk "kloch_profile:2" "p" "2" (some "a")
            [("y", Value.vint 2)])]
        "p.yml" =
      Except.ok (EnvironmentProfile.mk "p" "2"
        (some (EnvironmentProfile.mk "a" "1" none [("x", Value.vint 1)]))
        [("y", Value.vint 2)]) :=
  C3_write_read_roundtrip 2
    (EnvironmentProfile.mk "p" "2"
      (some (EnvironmentProfile.mk "a" "1" none [("x", Value.vint 1)]))
      [("y", Value.vint 2)])
    [("a.yml", SerializedProfile.mk "kloch_profile:2" "a" "1" none
      [("x", Value.vint 1)])]
    [("a.yml", SerializedProfile.mk "kloch_profile:2" "a" "1" none
        [("x", Value.vint 1)]),
     ("p.yml", SerializedProfile.mk "kloch_profile:2" "p" "2" (some "a")
        [("y", Value.vint 2)])]
    "p.yml" false rfl (by simp [chain_depth])
    ⟨by decide, ⟨"a.yml", SerializedProfile.mk "kloch_profile:2" "a" "1" none
        [("x", Value.vint 1)], rfl, rfl, rfl⟩, trivial⟩

/-- C9: on the object heap, `get_merged_profile` only reads existing
objects and allocates new ones — every pre-existing address (the original
profile, its base, and all ancestors) keeps exactly its previous object,
the result is a fresh address at or beyond the old heap end, and the
returned profile has `base = None`. -/
theorem C9_get_merged_profile_no_mutation :
    ∀ (fuel : Nat) (heap : Heap) (addr : Nat) (heap2 : Heap) (res : Nat),
      get_merged_profile_heap fuel heap addr = some (heap2, res) →
      (∃ ext, heap2 = heap ++ ext) ∧ heap.length ≤ res ∧
      (∃ obj, heap2[res]? = some obj ∧ obj.base = none) := by
  intro fuel
  induction fuel with
  | zero => intro heap addr heap2 res h; simp [get_merged_profile_heap] at h
  | succ n ih =>
    intro heap addr heap2 res h
    simp only [get_merged_profile_heap] at h
    split at h
    · exact absurd h (by simp)
    · rename_i obj hobj
      split at h
      · simp only [Option.some.injEq, Prod.mk.injEq] at h
        obtain ⟨h2, hres⟩ := h
        subst h2
        subst hres
        exact ⟨⟨_, rfl⟩, Nat.le_refl _,
          ⟨ProfileObj.mk obj.identifier obj.version none obj.managers, by simp, rfl⟩⟩
      · rename_i base_addr hbase
        split at h
        · exact absurd h (by simp)
        · rename_i heap1 merged_addr hrec
          split at h
          · exact absurd h (by simp)
          · rename_i merged_base hmb
            simp only [Option.some.injEq, Prod.mk.injEq] at h
            obtain ⟨h2, hres⟩ := h
            subst h2
            subst hres
            obtain ⟨⟨ext1, hext1⟩, hlen1, -⟩ := ih heap base_addr heap1 merged_addr hrec
            refine ⟨⟨ext1 ++ [ProfileObj.mk obj.identifier obj.version none
                (pms_add merged_base.managers obj.managers)],
              by rw [hext1, List.append_assoc]⟩, ?_, ?_⟩
            · rw [hext1]
              simp
            · exact ⟨ProfileObj.mk obj.identifier obj.version none
                (pms_add merged_base.managers obj.managers), by simp, rfl⟩

/-- Witness for C9 at a concrete two-object heap: the original objects are
untouched, the result is fresh with `base = None`. -/
theorem C9_get_merged_profile_no_mutation_witness :
    (∃ ext,
      [ProfileObj.mk "a" "1" none [("x", Value.vint 1)],
       ProfileObj.mk "c" "2" (some 0) [("y", Value.vint 2)],
       ProfileObj.mk "a" "1" none [("x", Value.vint 1)],
       ProfileObj.mk "c" "2" none
         (pms_add [("x", Value.vint 1)] [("y", Value.vint 2)])] =
        [ProfileObj.mk "a" "1" none [("x", Value.vint 1)],
         ProfileObj.mk "c" "2" (some 0) [("y", Value.vint 2)]] ++ ext) ∧
    ([ProfileObj.mk "a" "1" none [("x", Value.vint 1)],
      ProfileObj.mk "c" "2" (some 0) [("y", Value.vint 2)]] : Heap).length ≤ 3 ∧
    (∃ obj,
      ([ProfileObj.mk "a" "1" none [("x", Value.vint 1)],
        ProfileObj.mk "c" "2" (some 0) [("y", Value.vint 2)],
        ProfileObj.mk "a" "1" none [("x", Value.vint 1)],
        ProfileObj.mk "c" "2" none
          (pms_add [("x", Value.vint 1)] [("y", Value.vint 2)])] : Heap)[3]? =
          some obj ∧
        obj.base = none) :=
  C9_get_merged_profile_no_mutation 2
    [ProfileObj.mk "a" "1" none [("x", Value.vint 1)],
     ProfileObj.mk "c" "2" (some 0) [("y", Value.vint 2)]] 1
    [ProfileObj.mk "a" "1" none [("x", Value.vint 1)],
     ProfileObj.mk "c" "2" (some 0) [("y", Value.vint 2)],
     ProfileObj.mk "a" "1" none [("x", Value.vint 1)],
     ProfileObj.mk "c" "2" none
       (pms_add [("x", Value.vint 1)] [("y", Value.vint 2)])] 3
    (by simp [get_merged_profile_heap])

end Kloch
